import Mathlib

/-!
Shallow embedding of the Ledyard Bridge simulation (`ledyard.c`).

The shared bridge state, the per-car record, and the state-mutating bodies of
`initialize_car`, `arrive_bridge`, `on_bridge` and `exit_bridge` are translated
into pure Lean functions; the mutex and the blocking of `pthread_cond_wait` are
not modelled (each function body runs atomically under the single lock in the
source), and the wait loop of `arrive_bridge` is split into its loop guard
(`wait_cond`) and the code that runs after the guard turns false
(`arrive_update`).  Machine integers are modelled as `Int` (all values stay far
from overflow).  A step relation over the bridge state extended with the ghost
list of directions of the cars currently on the bridge gives the reachable
states of the protocol.
-/

namespace Ledyard

/-- `MAX_CARS` from ledyard.c line 17. -/
def MAX_CARS : Int := 3

/-- `NO_DIRECTION` from ledyard.c line 18. -/
def NO_DIRECTION : Int := -1

/-- `TO_HANOVER` from ledyard.c line 19. -/
def TO_HANOVER : Int := 0

/-- `TO_NORWICH` from ledyard.c line 20. -/
def TO_NORWICH : Int := 1

/-- The shared bridge state `bridge_state_t` (ledyard.c lines 26-35), without
the mutex and the two condition variables. -/
structure BridgeState where
  str_dir : String
  dir : Int
  num_cars : Int
  wait_hanover : Int
  wait_norwich : Int
deriving Repr, DecidableEq

/-- The per-car record `car_t` (ledyard.c lines 40-48).  The pointer fields are
replaced by direction-indexed lookups (`waitDir`, `setWait`). -/
structure Car where
  str_dir : String
  dir : Int
  other_dir : Int
deriving Repr, DecidableEq

/-- The car built by `initialize_car` for `TO_HANOVER` (ledyard.c lines 155-163). -/
def carH : Car :=
  { str_dir := "Hanover", dir := TO_HANOVER, other_dir := TO_NORWICH }

/-- The car built by `initialize_car` for `TO_NORWICH` (ledyard.c lines 164-172). -/
def carN : Car :=
  { str_dir := "Norwich", dir := TO_NORWICH, other_dir := TO_HANOVER }

/-- `initialize_car` (ledyard.c lines 153-179): builds the car record for a
direction, or fails (returns -1 in C, `none` here) when the direction is
neither `TO_HANOVER` nor `TO_NORWICH`. -/
def make_car (d : Int) : Option Car :=
  if d = TO_HANOVER then some carH
  else if d = TO_NORWICH then some carN
  else none

/-- The waiting counter the car's `wait_dir` pointer refers to: `wait_hanover`
for a car heading to Hanover, `wait_norwich` for a car heading to Norwich. -/
def waitDir (s : BridgeState) (d : Int) : Int :=
  if d = TO_HANOVER then s.wait_hanover else s.wait_norwich

/-- Write through the car's `wait_dir` pointer. -/
def setWait (s : BridgeState) (d : Int) (v : Int) : BridgeState :=
  if d = TO_HANOVER then { s with wait_hanover := v } else { s with wait_norwich := v }

/-- The guard of the wait loop of `arrive_bridge` (ledyard.c line 207):
`ledyard.dir == car->other_dir || ledyard.num_cars >= MAX_CARS`. -/
def wait_cond (car : Car) (s : BridgeState) : Bool :=
  decide (s.dir = car.other_dir) || decide (s.num_cars ≥ MAX_CARS)

/-- The two mutations admitting the car (ledyard.c lines 236-237):
`(*car->wait_dir)--; ledyard.num_cars++;`. -/
def get_on (car : Car) (s : BridgeState) : BridgeState :=
  let s1 := setWait s car.dir (waitDir s car.dir - 1)
  { s1 with num_cars := s1.num_cars + 1 }

/-- The body of `arrive_bridge` after the wait loop has exited
(ledyard.c lines 216-237): the collision check, the over-capacity check, the
no-direction-with-cars check, the direction (re)assignment when the bridge is
empty, and the admission itself.  Errors are the `-1` returns of the source. -/
def arrive_update (car : Car) (s : BridgeState) : Except String BridgeState :=
  if s.dir = car.other_dir then
    Except.error "KABOOOM! You just caused a car crash!"
  else if s.num_cars ≥ MAX_CARS then
    Except.error "KERSPLASH! Your bridge just collapsed from over-capacity!"
  else if s.dir = NO_DIRECTION then
    if s.num_cars ≠ 0 then
      Except.error "Error; bridge in invalid state, having no direction with car(s) on it"
    else
      Except.ok (get_on car { s with dir := car.dir, str_dir := car.str_dir })
  else
    Except.ok (get_on car s)

/-- The `min` helper of ledyard.c lines 84-86: `a < b ? a : b`. -/
def cmin (a b : Int) : Int :=
  if a < b then a else b

/-- The body of `exit_bridge` (ledyard.c lines 288-322) as a pure function:
returns the new bridge state, `num_sig_current` and `num_sig_other`.  The
decrement of `num_cars`, the emptying reset of the direction, and the two quota
computations follow the source order; the waiting counters are read through the
car's pointers and are never written here. -/
def exit_bridge (car : Car) (s : BridgeState) : BridgeState × Int × Int :=
  let s1 : BridgeState := { s with num_cars := s.num_cars - 1 }
  if s1.num_cars = 0 then
    let s2 : BridgeState := { s1 with dir := NO_DIRECTION, str_dir := "Neither" }
    (s2, cmin (MAX_CARS - s2.num_cars) (waitDir s2 car.dir),
      cmin MAX_CARS (waitDir s1 car.other_dir))
  else
    (s1, cmin (MAX_CARS - s1.num_cars) (waitDir s1 car.dir), 0)

/-- One iteration sequence of a `for (i = 0; i < n; i++) pthread_cond_signal(cv)`
loop: the condition variable (identified by its direction) signalled at each
iteration, in order. -/
def signal_run (cv : Int) : Nat → List Int
  | 0 => []
  | Nat.succ n => signal_run cv n ++ [cv]

/-- The sequence of condition-variable signals issued by `exit_bridge`
(ledyard.c lines 306-322): first the `num_sig_current` signals on `car->current`,
then the `num_sig_other` signals on `car->other`. -/
def exit_signals (car : Car) (s : BridgeState) : List Int :=
  signal_run car.dir (exit_bridge car s).2.1.toNat ++
    signal_run car.other_dir (exit_bridge car s).2.2.toNat

/-- The body of `on_bridge` (ledyard.c lines 259-276): it only reads the state
to print the report, so it returns the state unchanged together with the
printed lines. -/
def on_bridge (_car : Car) (s : BridgeState) : BridgeState × List String :=
  (s, ["====== Ledyard Bridge ======",
       "Flow of Traffic: " ++ toString s.num_cars ++ " cars to " ++ s.str_dir,
       "Cars waiting for Hanover: " ++ toString s.wait_hanover,
       "Cars waiting for Norwich: " ++ toString s.wait_norwich])

/-- The bridge state set up by `initialize_bridge` (ledyard.c lines 395-400). -/
def initLedyard : BridgeState :=
  { str_dir := "Neither", dir := NO_DIRECTION, num_cars := 0,
    wait_hanover := 0, wait_norwich := 0 }

/-- The bridge state extended with the ghost list of the directions of the cars
currently on the bridge (one entry per admitted, not yet exited, car).  The
ghost list is what lets us state that no two cars of opposing directions are on
the bridge at the same time. -/
structure SysState where
  bridge : BridgeState
  onBridge : List Int
deriving Repr, DecidableEq

/-- The initial system state: the bridge of `initialize_bridge`, nobody on it. -/
def initSys : SysState :=
  { bridge := initLedyard, onBridge := [] }

/-- One atomic step of the protocol, as executed under the bridge mutex by some
car thread:
* `register`: the `(*car->wait_dir)++` at the top of `arrive_bridge`
  (ledyard.c line 203);
* `enter`: the admission code after the wait loop of `arrive_bridge` has
  exited with its guard false (ledyard.c lines 207-237), in the case where no
  error branch fires; the admitted car's direction joins the ghost list;
* `leave`: the body of `exit_bridge` (ledyard.c lines 297-304) for a car that
  is actually on the bridge, i.e. whose admission was recorded in the ghost
  list; its direction is removed from the ghost list. -/
inductive Step : SysState → SysState → Prop where
  | register (t : SysState) (d : Int) (car : Car)
      (hc : make_car d = some car) :
      Step t { bridge := setWait t.bridge car.dir (waitDir t.bridge car.dir + 1),
               onBridge := t.onBridge }
  | enter (t : SysState) (d : Int) (car : Car) (s' : BridgeState)
      (hc : make_car d = some car)
      (hw : wait_cond car t.bridge = false)
      (hok : arrive_update car t.bridge = Except.ok s') :
      Step t { bridge := s', onBridge := car.dir :: t.onBridge }
  | leave (t : SysState) (d : Int) (car : Car)
      (hc : make_car d = some car)
      (hmem : car.dir ∈ t.onBridge) :
      Step t { bridge := (exit_bridge car t.bridge).1,
               onBridge := t.onBridge.erase car.dir }

/-- A system state reachable from the initialized bridge by protocol steps. -/
def Reachable (t : SysState) : Prop :=
  Relation.ReflTransGen Step initSys t

/-- The inductive invariant of the protocol. -/
structure Inv (t : SysState) : Prop where
  nonneg : 0 ≤ t.bridge.num_cars
  le_max : t.bridge.num_cars ≤ MAX_CARS
  empty_iff : t.bridge.num_cars = 0 ↔ t.bridge.dir = NO_DIRECTION
  len_eq : (t.onBridge.length : Int) = t.bridge.num_cars
  same_dir : ∀ x ∈ t.onBridge, x = t.bridge.dir
  dir_ok : t.bridge.dir = NO_DIRECTION ∨ t.bridge.dir = TO_HANOVER ∨
    t.bridge.dir = TO_NORWICH

/-! ### Helper lemmas about the operations -/

lemma make_car_elim {d : Int} {car : Car} (h : make_car d = some car) :
    (d = TO_HANOVER ∧ car = carH) ∨ (d = TO_NORWICH ∧ car = carN) := by
  unfold make_car at h
  by_cases h0 : d = TO_HANOVER
  · rw [if_pos h0] at h
    injection h with h2
    exact Or.inl ⟨h0, h2.symm⟩
  · rw [if_neg h0] at h
    by_cases h1 : d = TO_NORWICH
    · rw [if_pos h1] at h
      injection h with h2
      exact Or.inr ⟨h1, h2.symm⟩
    · rw [if_neg h1] at h
      exact Option.noConfusion h

lemma car_dirs {d : Int} {car : Car} (h : make_car d = some car) :
    (car.dir = TO_HANOVER ∧ car.other_dir = TO_NORWICH) ∨
      (car.dir = TO_NORWICH ∧ car.other_dir = TO_HANOVER) := by
  rcases make_car_elim h with ⟨_, rfl⟩ | ⟨_, rfl⟩
  · exact Or.inl ⟨rfl, rfl⟩
  · exact Or.inr ⟨rfl, rfl⟩

lemma setWait_dir (s : BridgeState) (d v : Int) : (setWait s d v).dir = s.dir := by
  unfold setWait; split <;> rfl

lemma setWait_num_cars (s : BridgeState) (d v : Int) :
    (setWait s d v).num_cars = s.num_cars := by
  unfold setWait; split <;> rfl

lemma waitDir_setWait_self (s : BridgeState) (d v : Int) :
    waitDir (setWait s d v) d = v := by
  by_cases h : d = TO_HANOVER <;> simp [setWait, waitDir, h]

lemma waitDir_redirect (s : BridgeState) (a : Int) (b : String) (d : Int) :
    waitDir { s with dir := a, str_dir := b } d = waitDir s d := by
  by_cases h : d = TO_HANOVER <;> simp [waitDir, h]

lemma get_on_num_cars (car : Car) (s : BridgeState) :
    (get_on car s).num_cars = s.num_cars + 1 := by
  simp [get_on, setWait_num_cars]

lemma get_on_dir (car : Car) (s : BridgeState) : (get_on car s).dir = s.dir := by
  simp [get_on, setWait_dir]

lemma get_on_wait_self (car : Car) (s : BridgeState) :
    waitDir (get_on car s) car.dir = waitDir s car.dir - 1 := by
  by_cases h : car.dir = TO_HANOVER <;> simp [get_on, setWait, waitDir, h]

lemma arrive_update_ok_elim {car : Car} {s s' : BridgeState}
    (h : arrive_update car s = Except.ok s') :
    s.dir ≠ car.other_dir ∧ s.num_cars < MAX_CARS ∧
    ((s.dir = NO_DIRECTION ∧ s.num_cars = 0 ∧
        s' = get_on car { s with dir := car.dir, str_dir := car.str_dir }) ∨
      (s.dir ≠ NO_DIRECTION ∧ s' = get_on car s)) := by
  unfold arrive_update at h
  split_ifs at h with h1 h2 h3 h4
  · injection h with h5
    exact ⟨h1, lt_of_not_ge h2, Or.inl ⟨h3, not_ne_iff.mp h4, h5.symm⟩⟩
  · injection h with h5
    exact ⟨h1, lt_of_not_ge h2, Or.inr ⟨h3, h5.symm⟩⟩

lemma arrive_update_ok_of (car : Car) (s : BridgeState)
    (h1 : s.dir ≠ car.other_dir) (h2 : s.num_cars < MAX_CARS)
    (h3 : s.dir = NO_DIRECTION → s.num_cars = 0) :
    ∃ s', arrive_update car s = Except.ok s' := by
  unfold arrive_update
  split_ifs with g1 g2 g3 g4
  · exact absurd g1 h1
  · exact absurd g2 (not_le.mpr h2)
  · exact absurd (h3 g3) g4
  · exact ⟨_, rfl⟩
  · exact ⟨_, rfl⟩

lemma cmin_eq_min (a b : Int) : cmin a b = min a b := by
  unfold cmin; split <;> omega

lemma exit_bridge_spec (car : Car) (s : BridgeState) :
    (exit_bridge car s).1.num_cars = s.num_cars - 1 ∧
    (s.num_cars - 1 = 0 →
      (exit_bridge car s).1.dir = NO_DIRECTION ∧
      (exit_bridge car s).2.2 = cmin MAX_CARS (waitDir s car.other_dir)) ∧
    (s.num_cars - 1 ≠ 0 →
      (exit_bridge car s).1.dir = s.dir ∧ (exit_bridge car s).2.2 = 0) ∧
    (exit_bridge car s).2.1 =
      cmin (MAX_CARS - (s.num_cars - 1)) (waitDir s car.dir) ∧
    (exit_bridge car s).1.wait_hanover = s.wait_hanover ∧
    (exit_bridge car s).1.wait_norwich = s.wait_norwich := by
  by_cases h : s.num_cars - 1 = 0 <;>
    by_cases hd : car.dir = TO_HANOVER <;>
      by_cases ho : car.other_dir = TO_HANOVER <;>
        simp [exit_bridge, waitDir, h, hd, ho]

/-! ### The inductive invariant -/

lemma init_inv : Inv initSys := by
  refine ⟨?_, ?_, ?_, ?_, ?_, ?_⟩ <;>
    simp [initSys, initLedyard, MAX_CARS, NO_DIRECTION]

lemma step_inv {t u : SysState} (ht : Inv t) (h : Step t u) : Inv u := by
  cases h with
  | register d car hc =>
      refine ⟨?_, ?_, ?_, ?_, ?_, ?_⟩ <;>
        simp only [setWait_num_cars, setWait_dir]
      · exact ht.nonneg
      · exact ht.le_max
      · exact ht.empty_iff
      · exact ht.len_eq
      · exact ht.same_dir
      · exact ht.dir_ok
  | enter d car s' hc hw hok =>
      obtain ⟨h1, h2, h3⟩ := arrive_update_ok_elim hok
      have hnum : s'.num_cars = t.bridge.num_cars + 1 := by
        rcases h3 with ⟨_, _, rfl⟩ | ⟨_, rfl⟩ <;> simp [get_on_num_cars]
      have hdir : (t.bridge.dir = NO_DIRECTION ∧ s'.dir = car.dir) ∨
          (t.bridge.dir ≠ NO_DIRECTION ∧ s'.dir = t.bridge.dir) := by
        rcases h3 with ⟨hd0, _, rfl⟩ | ⟨hd0, rfl⟩
        · exact Or.inl ⟨hd0, by simp [get_on_dir]⟩
        · exact Or.inr ⟨hd0, by simp [get_on_dir]⟩
      have hflow : t.bridge.dir ≠ NO_DIRECTION → t.bridge.dir = car.dir := by
        intro hne
        rcases car_dirs hc with ⟨a, b⟩ | ⟨a, b⟩ <;>
          rcases ht.dir_ok with hh | hh | hh <;>
            first
              | exact absurd hh hne
              | (rw [a]; exact hh)
              | (exact absurd (hh.trans b.symm) h1)
      have hcd2 : car.dir = TO_HANOVER ∨ car.dir = TO_NORWICH := by
        rcases car_dirs hc with ⟨a, _⟩ | ⟨a, _⟩
        · exact Or.inl a
        · exact Or.inr a
      refine ⟨?_, ?_, ?_, ?_, ?_, ?_⟩
      · show 0 ≤ s'.num_cars
        have := ht.nonneg; omega
      · show s'.num_cars ≤ MAX_CARS
        omega
      · show s'.num_cars = 0 ↔ s'.dir = NO_DIRECTION
        have hn : s'.num_cars ≠ 0 := by have := ht.nonneg; omega
        have hd : s'.dir ≠ NO_DIRECTION := by
          rcases hdir with ⟨_, hh⟩ | ⟨hne, hh⟩
          · rw [hh]
            rcases hcd2 with a | a <;> rw [a] <;> decide
          · rw [hh]; exact hne
        exact iff_of_false hn hd
      · show ((car.dir :: t.onBridge).length : Int) = s'.num_cars
        have := ht.len_eq
        simp only [List.length_cons]
        push_cast
        omega
      · show ∀ x ∈ car.dir :: t.onBridge, x = s'.dir
        intro x hx
        rcases hdir with ⟨hd0, hh⟩ | ⟨hd0, hh⟩
        · have hlen0 : t.onBridge.length = 0 := by
            have h0 : t.bridge.num_cars = 0 := ht.empty_iff.mpr hd0
            have := ht.len_eq; omega
          have hnil : t.onBridge = [] := List.eq_nil_of_length_eq_zero hlen0
          rw [hnil] at hx
          rcases List.mem_singleton.mp hx with rfl
          exact hh.symm ▸ rfl
        · rcases List.mem_cons.mp hx with rfl | hx2
          · rw [hh, hflow hd0]
          · rw [hh]; exact ht.same_dir x hx2
      · show s'.dir = NO_DIRECTION ∨ s'.dir = TO_HANOVER ∨ s'.dir = TO_NORWICH
        rcases hdir with ⟨_, hh⟩ | ⟨_, hh⟩
        · rw [hh]
          rcases hcd2 with a | a <;> rw [a]
          · exact Or.inr (Or.inl rfl)
          · exact Or.inr (Or.inr rfl)
        · rw [hh]; exact ht.dir_ok
  | leave d car hc hmem =>
      obtain ⟨e1, e2, e3, _, _, _⟩ := exit_bridge_spec car t.bridge
      have hlen1 : 1 ≤ t.onBridge.length := List.length_pos.mpr (List.ne_nil_of_mem hmem)
      have hlene : (t.onBridge.erase car.dir).length = t.onBridge.length - 1 :=
        List.length_erase_of_mem hmem
      have hn1 : 1 ≤ t.bridge.num_cars := by have := ht.len_eq; omega
      refine ⟨?_, ?_, ?_, ?_, ?_, ?_⟩
      · show 0 ≤ (exit_bridge car t.bridge).1.num_cars
        omega
      · show (exit_bridge car t.bridge).1.num_cars ≤ MAX_CARS
        have := ht.le_max; omega
      · show (exit_bridge car t.bridge).1.num_cars = 0 ↔
            (exit_bridge car t.bridge).1.dir = NO_DIRECTION
        by_cases hz : t.bridge.num_cars - 1 = 0
        · exact iff_of_true (by omega) (e2 hz).1
        · refine iff_of_false (by omega) ?_
          rw [(e3 hz).1]
          intro hcon
          have h0 : t.bridge.num_cars = 0 := ht.empty_iff.mpr hcon
          omega
      · show ((t.onBridge.erase car.dir).length : Int) =
            (exit_bridge car t.bridge).1.num_cars
        have := ht.len_eq; rw [hlene]; push_cast [hlen1]; omega
      · show ∀ x ∈ t.onBridge.erase car.dir, x = (exit_bridge car t.bridge).1.dir
        intro x hx
        by_cases hz : t.bridge.num_cars - 1 = 0
        · have hlen0 : (t.onBridge.erase car.dir).length = 0 := by
            have := ht.len_eq; omega
          rw [List.eq_nil_of_length_eq_zero hlen0] at hx
          exact absurd hx (List.not_mem_nil x)
        · rw [(e3 hz).1]
          exact ht.same_dir x (List.mem_of_mem_erase hx)
      · show (exit_bridge car t.bridge).1.dir = NO_DIRECTION ∨
            (exit_bridge car t.bridge).1.dir = TO_HANOVER ∨
            (exit_bridge car t.bridge).1.dir = TO_NORWICH
        by_cases hz : t.bridge.num_cars - 1 = 0
        · exact Or.inl (e2 hz).1
        · rw [(e3 hz).1]; exact ht.dir_ok

lemma reachable_inv {t : SysState} (h : Reachable t) : Inv t := by
  induction h with
  | refl => exact init_inv
  | tail _ hstep ih => exact step_inv ih hstep

/-! ### Concretely reached states used by witnesses -/

/-- The system state after one Hanover car has registered and been admitted
from the initial bridge: one car on the bridge, direction Hanover. -/
def oneH : SysState :=
  { bridge := { str_dir := "Hanover", dir := TO_HANOVER, num_cars := 1,
                wait_hanover := 0, wait_norwich := 0 },
    onBridge := [TO_HANOVER] }

lemma reachable_oneH : Reachable oneH := by
  refine Relation.ReflTransGen.tail
    (Relation.ReflTransGen.single (Step.register initSys TO_HANOVER carH rfl)) ?_
  exact Step.enter _ TO_HANOVER carH oneH.bridge rfl rfl rfl

/-! ### The claims -/

/-- C1: Mutual exclusion of directions: in every state reachable from the
initialized bridge state by arrive_bridge and exit_bridge steps, all admitted
cars share the bridge's single direction field, and at no reachable instant
are cars of opposing directions simultaneously on the bridge. -/
theorem mutual_exclusion_of_directions (t : SysState) (h : Reachable t) :
    (∀ x ∈ t.onBridge, x = t.bridge.dir) ∧
    ¬ ∃ x ∈ t.onBridge, ∃ y ∈ t.onBridge, x = TO_HANOVER ∧ y = TO_NORWICH := by
  have ht := reachable_inv h
  refine ⟨ht.same_dir, ?_⟩
  rintro ⟨x, hx, y, hy, hx0, hy1⟩
  have e1 := ht.same_dir x hx
  have e2 := ht.same_dir y hy
  rw [hx0] at e1
  rw [hy1] at e2
  rw [← e1] at e2
  exact absurd e2 (by decide)

/-- Witness for C1 at the concretely reached state `oneH`. -/
theorem mutual_exclusion_of_directions_witness :
    (∀ x ∈ oneH.onBridge, x = oneH.bridge.dir) ∧
    ¬ ∃ x ∈ oneH.onBridge, ∃ y ∈ oneH.onBridge, x = TO_HANOVER ∧ y = TO_NORWICH :=
  mutual_exclusion_of_directions oneH reachable_oneH

/-- C2: State invariants preserved by every operation: in every state reachable
from the initialized bridge state (the `leave` step requiring, as the claim
assumes, that the exiting car was previously admitted), `0 ≤ num_cars ≤
MAX_CARS` and `num_cars = 0 ↔ dir = NO_DIRECTION`. -/
theorem state_invariants_preserved (t : SysState) (h : Reachable t) :
    0 ≤ t.bridge.num_cars ∧ t.bridge.num_cars ≤ MAX_CARS ∧
      (t.bridge.num_cars = 0 ↔ t.bridge.dir = NO_DIRECTION) := by
  have ht := reachable_inv h
  exact ⟨ht.nonneg, ht.le_max, ht.empty_iff⟩

/-- Witness for C2 at the concretely reached state `oneH`. -/
theorem state_invariants_preserved_witness :
    0 ≤ oneH.bridge.num_cars ∧ oneH.bridge.num_cars ≤ MAX_CARS ∧
      (oneH.bridge.num_cars = 0 ↔ oneH.bridge.dir = NO_DIRECTION) :=
  state_invariants_preserved oneH reachable_oneH

/-- C7: Unreachable failure branches: in any bridge state satisfying the
loop-exit condition of `arrive_bridge` (direction not opposite and below
capacity) together with the bridge invariant `num_cars = 0 ↔ dir =
NO_DIRECTION`, none of the collision, overload or no-direction-with-cars error
returns of `arrive_bridge` is taken: the update succeeds. -/
theorem error_branches_unreachable (car : Car) (d : Int) (s : BridgeState)
    (_hc : make_car d = some car)
    (hw : wait_cond car s = false)
    (hinv : s.num_cars = 0 ↔ s.dir = NO_DIRECTION) :
    ∃ s', arrive_update car s = Except.ok s' := by
  have hsp : ¬ s.dir = car.other_dir ∧ ¬ s.num_cars ≥ MAX_CARS := by
    simpa only [wait_cond, Bool.or_eq_false_iff, decide_eq_false_iff_not] using hw
  exact arrive_update_ok_of car s hsp.1 (lt_of_not_ge hsp.2) fun hd => hinv.mpr hd

/-- Witness for C7 at the initial bridge with a Hanover car. -/
theorem error_branches_unreachable_witness :
    make_car TO_HANOVER = some carH ∧
    wait_cond carH initLedyard = false ∧
    (initLedyard.num_cars = 0 ↔ initLedyard.dir = NO_DIRECTION) ∧
    ∃ s', arrive_update carH initLedyard = Except.ok s' :=
  ⟨rfl, rfl, by decide,
    error_branches_unreachable carH TO_HANOVER initLedyard rfl rfl (by decide)⟩

/-- C3: Arrival admission predicate: a successful `arrive_update` (the car got
on) happens only in a state where the wait-loop guard is false, i.e. the
direction is not the car's opposite and the bridge is below capacity, and it
decrements the car's waiting count and increments `num_cars`; moreover in any
state at or above capacity the wait-loop guard is true for the car (so even a
same-direction car stays blocked), matching the intentional capacity
enforcement. -/
theorem arrival_admission_predicate (car : Car) (d : Int) (s s' : BridgeState)
    (_hc : make_car d = some car)
    (hok : arrive_update car s = Except.ok s') :
    (wait_cond car s = false ∧ s.dir ≠ car.other_dir ∧ s.num_cars < MAX_CARS) ∧
    waitDir s' car.dir = waitDir s car.dir - 1 ∧
    s'.num_cars = s.num_cars + 1 ∧
    (∀ u : BridgeState, MAX_CARS ≤ u.num_cars → wait_cond car u = true) := by
  obtain ⟨h1, h2, h3⟩ := arrive_update_ok_elim hok
  refine ⟨⟨?_, h1, h2⟩, ?_, ?_, ?_⟩
  · simp only [wait_cond, Bool.or_eq_false_iff, decide_eq_false_iff_not]
    exact ⟨h1, by omega⟩
  · rcases h3 with ⟨_, _, rfl⟩ | ⟨_, rfl⟩
    · rw [get_on_wait_self, waitDir_redirect]
    · rw [get_on_wait_self]
  · rcases h3 with ⟨_, _, rfl⟩ | ⟨_, rfl⟩ <;> simp [get_on_num_cars]
  · intro u hu
    simp only [wait_cond, Bool.or_eq_true, decide_eq_true_eq]
    exact Or.inr hu

/-- The pre-state of the C3 witness: one Hanover car on the bridge, two more
waiting for Hanover, five waiting for Norwich. -/
def c3pre : BridgeState :=
  { str_dir := "Hanover", dir := TO_HANOVER, num_cars := 1,
    wait_hanover := 2, wait_norwich := 5 }

/-- The post-state of the C3 witness. -/
def c3post : BridgeState :=
  { str_dir := "Hanover", dir := TO_HANOVER, num_cars := 2,
    wait_hanover := 1, wait_norwich := 5 }

/-- Witness for C3: a Hanover car admitted to `c3pre`. -/
theorem arrival_admission_predicate_witness :
    (wait_cond carH c3pre = false ∧ c3pre.dir ≠ carH.other_dir ∧
      c3pre.num_cars < MAX_CARS) ∧
    waitDir c3post carH.dir = waitDir c3pre carH.dir - 1 ∧
    c3post.num_cars = c3pre.num_cars + 1 ∧
    (∀ u : BridgeState, MAX_CARS ≤ u.num_cars → wait_cond carH u = true) :=
  arrival_admission_predicate carH TO_HANOVER c3pre c3post rfl rfl

/-- C4: Departure release quotas: for any state with at least one car,
`exit_bridge` decrements `num_cars`; if the post-decrement count is zero it
resets the direction and computes the opposite-direction quota as
`min(MAX_CARS, waiting[opposite])`, otherwise that quota is zero; the
same-direction quota is `min(MAX_CARS - num_cars, waiting[same])` with the
post-decrement count. -/
theorem depart_release_quotas (car : Car) (d : Int) (s : BridgeState)
    (_hc : make_car d = some car) (_h1 : 1 ≤ s.num_cars) :
    (exit_bridge car s).1.num_cars = s.num_cars - 1 ∧
    (s.num_cars - 1 = 0 →
      (exit_bridge car s).1.dir = NO_DIRECTION ∧
      (exit_bridge car s).2.2 = min MAX_CARS (waitDir s car.other_dir)) ∧
    (s.num_cars - 1 ≠ 0 → (exit_bridge car s).2.2 = 0) ∧
    (exit_bridge car s).2.1 =
      min (MAX_CARS - (s.num_cars - 1)) (waitDir s car.dir) := by
  obtain ⟨e1, e2, e3, e4, _, _⟩ := exit_bridge_spec car s
  refine ⟨e1, fun hz => ⟨(e2 hz).1, ?_⟩, fun hz => (e3 hz).2, ?_⟩
  · rw [(e2 hz).2, cmin_eq_min]
  · rw [e4, cmin_eq_min]

/-- The pre-state of the C4 witness, the example of the claim: one occupant
towards Hanover (direction A), `waiting[A] = 5`, `waiting[B] = 2`. -/
def c4pre : BridgeState :=
  { str_dir := "Hanover", dir := TO_HANOVER, num_cars := 1,
    wait_hanover := 5, wait_norwich := 2 }

/-- Witness for C4 at the claim's own example: the depart yields quota 3 for
the same direction and 2 for the opposite one. -/
theorem depart_release_quotas_witness :
    (1 ≤ c4pre.num_cars ∧
      (exit_bridge carH c4pre).2.1 = 3 ∧ (exit_bridge carH c4pre).2.2 = 2) ∧
    (exit_bridge carH c4pre).1.num_cars = c4pre.num_cars - 1 ∧
    (c4pre.num_cars - 1 = 0 →
      (exit_bridge carH c4pre).1.dir = NO_DIRECTION ∧
      (exit_bridge carH c4pre).2.2 = min MAX_CARS (waitDir c4pre carH.other_dir)) ∧
    (c4pre.num_cars - 1 ≠ 0 → (exit_bridge carH c4pre).2.2 = 0) ∧
    (exit_bridge carH c4pre).2.1 =
      min (MAX_CARS - (c4pre.num_cars - 1)) (waitDir c4pre carH.dir) :=
  ⟨⟨by decide, by decide, by decide⟩,
    depart_release_quotas carH TO_HANOVER c4pre rfl (by decide)⟩

/-- The state refuting C5 as stated: one occupant towards Hanover, five cars
waiting for Hanover and two for Norwich. -/
def c5pre : BridgeState :=
  { str_dir := "Hanover", dir := TO_HANOVER, num_cars := 1,
    wait_hanover := 5, wait_norwich := 2 }

/-- C5 counterexample: at `c5pre` the departing car issues 3 + 2 = 5 condition
signals while the capacity headroom after the departure is only
`MAX_CARS - 0 = 3`, so the total number of signals exceeds the number of cars
that can legally be admitted afterwards. -/
theorem depart_wake_total_cex :
    ¬ ((exit_bridge carH c5pre).2.1 + (exit_bridge carH c5pre).2.2 ≤
        MAX_CARS - (exit_bridge carH c5pre).1.num_cars) := by decide

/-- C5 amended: per-direction wake bounds: the same-direction signal count
never exceeds the capacity headroom after the departure nor the same-direction
waiting count; the opposite-direction signal count is zero unless the bridge
emptied and never exceeds the full capacity; only the combined total can exceed
the headroom. -/
theorem depart_wake_bound_per_direction (car : Car) (s : BridgeState) :
    (exit_bridge car s).2.1 ≤ MAX_CARS - (exit_bridge car s).1.num_cars ∧
    (exit_bridge car s).2.1 ≤ waitDir s car.dir ∧
    ((exit_bridge car s).1.num_cars ≠ 0 → (exit_bridge car s).2.2 = 0) ∧
    (exit_bridge car s).2.2 ≤ MAX_CARS := by
  obtain ⟨e1, e2, e3, e4, _, _⟩ := exit_bridge_spec car s
  refine ⟨?_, ?_, fun hz => ?_, ?_⟩
  · rw [e4, e1, cmin_eq_min]
    exact min_le_left _ _
  · rw [e4, cmin_eq_min]
    exact min_le_right _ _
  · rw [e1] at hz
    exact (e3 hz).2
  · by_cases hz : s.num_cars - 1 = 0
    · rw [(e2 hz).2, cmin_eq_min]
      exact min_le_left _ _
    · rw [(e3 hz).2]
      decide

/-- Witness for C5 (amended) at the refuting state `c5pre`: both per-direction
bounds hold there even though the total exceeds the headroom. -/
theorem depart_wake_bound_per_direction_witness :
    (exit_bridge carH c5pre).2.1 ≤ MAX_CARS - (exit_bridge carH c5pre).1.num_cars ∧
    (exit_bridge carH c5pre).2.1 ≤ waitDir c5pre carH.dir ∧
    ((exit_bridge carH c5pre).1.num_cars ≠ 0 → (exit_bridge carH c5pre).2.2 = 0) ∧
    (exit_bridge carH c5pre).2.2 ≤ MAX_CARS :=
  depart_wake_bound_per_direction carH c5pre

lemma signal_run_eq_replicate (cv : Int) (n : Nat) :
    signal_run cv n = List.replicate n cv := by
  induction n with
  | zero => rfl
  | succ k ih => rw [signal_run, ih, ← List.replicate_succ']

/-- C6: Departure signal order: the signal sequence emitted by `exit_bridge`
is exactly `num_sig_current` signals on the departing car's own condition
variable followed by exactly `num_sig_other` signals on the opposite one. -/
theorem depart_signal_order (car : Car) (s : BridgeState) :
    exit_signals car s =
      List.replicate (exit_bridge car s).2.1.toNat car.dir ++
        List.replicate (exit_bridge car s).2.2.toNat car.other_dir := by
  unfold exit_signals
  rw [signal_run_eq_replicate, signal_run_eq_replicate]

/-- C9: Observation is pure: `on_bridge` leaves every field of the bridge
state unchanged. -/
theorem on_bridge_pure (car : Car) (s : BridgeState) :
    (on_bridge car s).1 = s ∧
    (on_bridge car s).1.str_dir = s.str_dir ∧
    (on_bridge car s).1.dir = s.dir ∧
    (on_bridge car s).1.num_cars = s.num_cars ∧
    (on_bridge car s).1.wait_hanover = s.wait_hanover ∧
    (on_bridge car s).1.wait_norwich = s.wait_norwich :=
  ⟨rfl, rfl, rfl, rfl, rfl, rfl⟩

/-- C10: `exit_bridge` performs no emptiness check: called on an empty bridge
(`num_cars = 0`, `dir = NO_DIRECTION`) it leaves `num_cars = -1`, keeps the
direction `NO_DIRECTION` (the post-decrement count is nonzero, so the emptying
branch is skipped), computes the same-direction quota as
`min(MAX_CARS + 1, waiting[same])`, and issues no opposite-direction signal. -/
theorem exit_bridge_underflow (car : Car) (d : Int) (s : BridgeState)
    (_hc : make_car d = some car)
    (h0 : s.num_cars = 0) (hd : s.dir = NO_DIRECTION) :
    (exit_bridge car s).1.num_cars = -1 ∧
    (exit_bridge car s).1.dir = NO_DIRECTION ∧
    (exit_bridge car s).2.1 = min (MAX_CARS + 1) (waitDir s car.dir) ∧
    (exit_bridge car s).2.2 = 0 := by
  obtain ⟨e1, e2, e3, e4, _, _⟩ := exit_bridge_spec car s
  have hz : s.num_cars - 1 ≠ 0 := by omega
  refine ⟨by omega, ?_, ?_, (e3 hz).2⟩
  · rw [(e3 hz).1]
    exact hd
  · rw [e4, cmin_eq_min, h0]
    norm_num

/-- The empty bridge with two cars waiting for Hanover, input of the C10
witness. -/
def c10pre : BridgeState :=
  { str_dir := "Neither", dir := NO_DIRECTION, num_cars := 0,
    wait_hanover := 2, wait_norwich := 0 }

/-- Witness for C10: a depart from the empty bridge `c10pre` drives
`num_cars` to -1 and computes quota `min(4, 2) = 2`. -/
theorem exit_bridge_underflow_witness :
    (c10pre.num_cars = 0 ∧ c10pre.dir = NO_DIRECTION) ∧
    (exit_bridge carH c10pre).1.num_cars = -1 ∧
    (exit_bridge carH c10pre).1.dir = NO_DIRECTION ∧
    (exit_bridge carH c10pre).2.1 = min (MAX_CARS + 1) (waitDir c10pre carH.dir) ∧
    (exit_bridge carH c10pre).2.2 = 0 :=
  ⟨⟨rfl, rfl⟩, exit_bridge_underflow carH TO_HANOVER c10pre rfl rfl rfl⟩

/-- Outcome of `arrive_bridge` for a thread running with no other threads to
signal it. -/
inductive ArriveOutcome where
  | entered : BridgeState → ArriveOutcome
  | failed : BridgeState → ArriveOutcome
  | blocked : BridgeState → ArriveOutcome
deriving Repr, DecidableEq

/-- `arrive_bridge` (ledyard.c lines 197-247) as executed by a thread running
alone: the waiting-lobby increment, then either the wait loop blocks forever
(guard true and nobody left to signal), or the post-loop body runs.  A `-1`
return leaves the state as it was at the failing check; in particular the
waiting-lobby increment is not rolled back on failure. -/
def arrive_solo (car : Car) (s : BridgeState) : ArriveOutcome :=
  let s1 := setWait s car.dir (waitDir s car.dir + 1)
  if wait_cond car s1 then ArriveOutcome.blocked s1
  else
    match arrive_update car s1 with
    | Except.ok s2 => ArriveOutcome.entered s2
    | Except.error _ => ArriveOutcome.failed s1

/-- `one_vehicle` (ledyard.c lines 345-374) for a thread running alone.  The
source calls `initialize_car`, `arrive_bridge`, `on_bridge` and `exit_bridge`
in sequence and ignores every return code, so after `arrive_bridge` returns
`-1` it still calls `on_bridge` and `exit_bridge`.  `none` stands for the runs
that never reach `exit_bridge` in a defined way: a forever-blocked arrival, or
an invalid direction (the C code would then read the uninitialized fields of
the car record, which is undefined behaviour). -/
def one_vehicle_run (d : Int) (s : BridgeState) : Option BridgeState :=
  match make_car d with
  | none => none
  | some car =>
    match arrive_solo car s with
    | ArriveOutcome.blocked _ => none
    | ArriveOutcome.entered s1 => some (exit_bridge car (on_bridge car s1).1).1
    | ArriveOutcome.failed s1 => some (exit_bridge car (on_bridge car s1).1).1

/-- The broken-invariant bridge state (no direction, two cars) on which
`arrive_bridge` fails with `-1` at its internal check. -/
def c8pre : BridgeState :=
  { str_dir := "Neither", dir := NO_DIRECTION, num_cars := 2,
    wait_hanover := 0, wait_norwich := 0 }

/-- C8 is violated by the code: from `c8pre` the arrival of a Hanover car
fails (`arrive_bridge` returns -1 at the no-direction-with-cars check), yet
`one_vehicle` still performs the departure step: the run ends with `num_cars`
decremented to 1 for a car that was never admitted (and the waiting count
leaked at 1). -/
theorem one_vehicle_exits_after_failed_arrival :
    (∃ s1, arrive_solo carH c8pre = ArriveOutcome.failed s1) ∧
    one_vehicle_run TO_HANOVER c8pre =
      some { str_dir := "Neither", dir := NO_DIRECTION, num_cars := 1,
             wait_hanover := 1, wait_norwich := 0 } :=
  ⟨⟨_, rfl⟩, rfl⟩

end Ledyard

